import Mathlib

/-!
A shallow embedding of the data-access layer of the Inventory Manager
(`src/db.py`): an SQLite store with two tables, `Categories` and `Products`,
together with the CRUD and report functions defined in that file.

Modelling choices, all taken from the source:
* A table is a list of rows in rowid (insertion) order; `catSeq` / `prodSeq`
  are the `sqlite_sequence` counters of the two AUTOINCREMENT tables.
* An AUTOINCREMENT insert chooses `max (seq, largest existing rowid) + 1`
  as the new rowid and stores it back into the sequence counter, which is
  SQLite's documented behaviour.
* `REAL` values (prices) are modelled as rationals; `INTEGER` values as
  integers.
* The connection opened by `get_connection` never issues
  `PRAGMA foreign_keys = ON`, so the `FOREIGN KEY` clause declared by
  `init_db` is NOT enforced by SQLite: an `INSERT`/`UPDATE` with a
  `category_id` that matches no category succeeds.
* `ORDER BY` is modelled with `List.insertionSort` (a stable sort, matching
  SQLite's deterministic scan followed by a sort on the named column);
  `TEXT` comparison is byte order, which for UTF-8 agrees with the
  code-point order used by `String`'s linear order.
-/

namespace Inventory

/-- A row of the `Categories` table (`init_db`, src/db.py lines 64-69). -/
structure Category where
  category_id : Int
  name : String
deriving DecidableEq, Repr

/-- A row of the `Products` table (`init_db`, src/db.py lines 72-81). -/
structure Product where
  product_id : Int
  name : String
  price : ℚ
  stock : Int
  category_id : Int
deriving DecidableEq, Repr

/-- The whole store: both tables plus their `sqlite_sequence` counters. -/
structure DB where
  categories : List Category
  products : List Product
  catSeq : Int
  prodSeq : Int
deriving DecidableEq, Repr

/-- Largest rowid present in a table (0 when the table is empty). -/
def maxId : List Int → Int
  | [] => 0
  | i :: is => max i (maxId is)

/-- The rowid SQLite assigns to the next row of the `Categories` table:
one more than the larger of the sequence counter and the largest rowid
currently in the table. -/
def nextCatId (db : DB) : Int :=
  max db.catSeq (maxId (db.categories.map (fun c => c.category_id))) + 1

/-- The rowid SQLite assigns to the next row of the `Products` table. -/
def nextProdId (db : DB) : Int :=
  max db.prodSeq (maxId (db.products.map (fun p => p.product_id))) + 1

/-- A joined row as returned by the product queries: product columns plus
`c.name as category_name` (src/db.py lines 189-194 and similar). -/
structure ProductRow where
  product_id : Int
  name : String
  price : ℚ
  stock : Int
  category_id : Int
  category_name : String
deriving DecidableEq, Repr

/-- Forget the joined category name, recovering the underlying product row. -/
def toProd (r : ProductRow) : Product :=
  { product_id := r.product_id, name := r.name, price := r.price,
    stock := r.stock, category_id := r.category_id }

/-- The joined row built from product `p` and a matching category name. -/
def mkRow (p : Product) (cname : String) : ProductRow :=
  { product_id := p.product_id, name := p.name, price := p.price,
    stock := p.stock, category_id := p.category_id, category_name := cname }

/-- The rows `JOIN Categories c ON p.category_id = c.category_id` produces
for a single product `p`: one row per matching category. -/
def joinRow (cats : List Category) (p : Product) : List ProductRow :=
  (cats.filter (fun c => c.category_id == p.category_id)).map
    (fun c => mkRow p c.name)

/-- The full inner join `FROM Products p JOIN Categories c ON
p.category_id = c.category_id`, products in rowid order. -/
def joinRows (cats : List Category) : List Product → List ProductRow
  | [] => []
  | p :: ps => joinRow cats p ++ joinRows cats ps

/-- `ORDER BY p.name` comparison on joined rows. -/
def rowLe (a b : ProductRow) : Prop := a.name ≤ b.name

instance : DecidableRel rowLe := fun a b =>
  inferInstanceAs (Decidable (a.name ≤ b.name))

instance : IsTotal ProductRow rowLe := ⟨fun a b => le_total a.name b.name⟩

instance : IsTrans ProductRow rowLe := ⟨fun _ _ _ h h' => le_trans h h'⟩

/-- `ORDER BY category_id` comparison on categories. -/
def catLe (a b : Category) : Prop := a.category_id ≤ b.category_id

instance : DecidableRel catLe := fun a b =>
  inferInstanceAs (Decidable (a.category_id ≤ b.category_id))

instance : IsTotal Category catLe := ⟨fun a b => le_total a.category_id b.category_id⟩

instance : IsTrans Category catLe := ⟨fun _ _ _ h h' => le_trans h h'⟩

/-- Python truthiness of an optional `int` argument: `None` and `0` are
falsy (`elif category_id:` in src/db.py lines 221, 366). -/
def truthyInt : Option Int → Bool
  | none => false
  | some n => n != 0

/-- Python truthiness of `category_ids and len(category_ids) > 0`
(src/db.py lines 211, 355): `None` and the empty list are falsy. -/
def truthyList : Option (List Int) → Bool
  | none => false
  | some l => !l.isEmpty

/-- `get_all_categories` (src/db.py lines 108-115):
`SELECT category_id, name FROM Categories ORDER BY category_id`. -/
def get_all_categories (db : DB) : List (Int × String) :=
  (List.insertionSort catLe db.categories).map (fun c => (c.category_id, c.name))

/-- `add_category` (src/db.py lines 118-129): a single
`INSERT INTO Categories (name) VALUES (?)`.  The `UNIQUE` constraint on
`name` makes the insert raise `IntegrityError` — caught, returning
`False` — exactly when a category with the same name is already stored;
otherwise the row is inserted with the next AUTOINCREMENT rowid and the
sequence counter is advanced to it. -/
def add_category (db : DB) (name : String) : DB × Bool :=
  if db.categories.any (fun c => c.name == name) then (db, false)
  else
    let i := nextCatId db
    ({ db with categories := db.categories ++ [{ category_id := i, name := name }],
               catSeq := i }, true)

/-- `delete_category` (src/db.py lines 132-176): inside one transaction,
count the products referencing the category; if any exist, roll back and
return `False`; otherwise delete the category row and, if the table is now
empty, reset the `sqlite_sequence` entry for `Categories` to 0. -/
def delete_category (db : DB) (category_id : Int) : DB × Bool :=
  let product_count :=
    (db.products.filter (fun p => p.category_id == category_id)).length
  if product_count > 0 then (db, false)
  else
    let remaining := db.categories.filter (fun c => !(c.category_id == category_id))
    if remaining.length = 0 then
      ({ db with categories := remaining, catSeq := 0 }, true)
    else
      ({ db with categories := remaining }, true)

/-- `get_all_products` (src/db.py lines 180-197): the inner join of the two
tables, `ORDER BY p.name`. -/
def get_all_products (db : DB) : List ProductRow :=
  List.insertionSort rowLe (joinRows db.categories db.products)

/-- `get_products_by_category` (src/db.py lines 200-238): three query
branches selected by Python truthiness — a non-empty id list filters with
`category_id IN (...)`, else a truthy single id filters with
`category_id = ?`, else no filter; each branch joins with `Categories`
and orders by product name. -/
def get_products_by_category (db : DB) (category_id : Option Int)
    (category_ids : Option (List Int)) : List ProductRow :=
  if truthyList category_ids then
    List.insertionSort rowLe
      ((joinRows db.categories db.products).filter
        (fun r => (category_ids.getD []).contains r.category_id))
  else if truthyInt category_id then
    List.insertionSort rowLe
      ((joinRows db.categories db.products).filter
        (fun r => r.category_id == category_id.getD 0))
  else
    List.insertionSort rowLe (joinRows db.categories db.products)

/-- `add_product` (src/db.py lines 241-257): a single
`INSERT INTO Products (name, price, stock, category_id) VALUES (?,?,?,?)`.
All four columns are supplied with non-NULL values and the declared
foreign key is not enforced (no `PRAGMA foreign_keys = ON` is ever
issued), so the insert always succeeds, whatever `category_id` is. -/
def add_product (db : DB) (name : String) (price : ℚ) (stock : Int)
    (category_id : Int) : DB × Bool :=
  let i := nextProdId db
  ({ db with
      products := db.products ++
        [{ product_id := i, name := name, price := price, stock := stock,
           category_id := category_id }],
      prodSeq := i }, true)

/-- The row rewrite performed by `update_product`'s
`UPDATE Products SET name = ?, price = ?, stock = ?, category_id = ?
WHERE product_id = ?` (src/db.py lines 276-280). -/
def updRow (product_id : Int) (name : String) (price : ℚ) (stock : Int)
    (category_id : Int) (p : Product) : Product :=
  if p.product_id == product_id then
    { p with name := name, price := price, stock := stock,
             category_id := category_id }
  else p

/-- `update_product` (src/db.py lines 260-289): one `UPDATE ... WHERE
product_id = ?` inside a transaction.  The statement cannot violate an
enforced constraint, so the function returns `True` (also when no row
matches). -/
def update_product (db : DB) (product_id : Int) (name : String) (price : ℚ)
    (stock : Int) (category_id : Int) : DB × Bool :=
  ({ db with
      products := db.products.map (updRow product_id name price stock category_id) },
   true)

/-- `delete_product` (src/db.py lines 292-325): inside one transaction,
delete the matching row(s), then reset the `sqlite_sequence` entry for
`Products` to 0 if the table is now empty.  Returns `True`. -/
def delete_product (db : DB) (product_id : Int) : DB × Bool :=
  let remaining := db.products.filter (fun p => !(p.product_id == product_id))
  if remaining.length = 0 then
    ({ db with products := remaining, prodSeq := 0 }, true)
  else
    ({ db with products := remaining }, true)

/-- `get_product_by_id` (src/db.py lines 328-340): the joined query with
`WHERE p.product_id = ?` followed by `fetchone()`, i.e. the first joined
row (in scan order) whose product id matches, if any. -/
def get_product_by_id (db : DB) (product_id : Int) : Option ProductRow :=
  (joinRows db.categories db.products).find? (fun r => r.product_id == product_id)

/-! ### The report aggregator -/

/-- SQL `AVG(price)`: `NULL` on the empty selection, otherwise the mean. -/
def sqlAvg (qs : List ℚ) : Option ℚ :=
  if qs.isEmpty then none else some (qs.sum / qs.length)

/-- SQL `SUM` over a `REAL` column: `NULL` on the empty selection. -/
def sqlSumQ (qs : List ℚ) : Option ℚ :=
  if qs.isEmpty then none else some qs.sum

/-- SQL `SUM` over an `INTEGER` column: `NULL` on the empty selection. -/
def sqlSumZ (zs : List Int) : Option Int :=
  if zs.isEmpty then none else some zs.sum

/-- Round to the nearest integer, ties away from zero (the rule SQLite's
`ROUND` applies). -/
def rawRound (x : ℚ) : Int :=
  if x < 0 then -round (-x) else round x

/-- SQLite `ROUND(x, 2)`: round to 2 decimal places, ties away from zero. -/
def sqlRound2 (q : ℚ) : ℚ := (rawRound (q * 100) : ℚ) / 100

/-- Round to the nearest integer, ties to even (Python's `round`). -/
def bankers (x : ℚ) : Int :=
  if Int.fract x = 1 / 2 then
    if Even ⌊x⌋ then ⌊x⌋ else ⌊x⌋ + 1
  else round x

/-- Python `round(x, 2)`: round to 2 decimal places, ties to even. -/
def pyRound2 (q : ℚ) : ℚ := (bankers (q * 100) : ℚ) / 100

/-- The rows the three `WHERE` branches of `get_category_report`
(src/db.py lines 355-382) select: a truthy non-empty id list filters with
`category_id IN (...)`, else a truthy single id filters with
`category_id = ?`, else all products. -/
def reportFilter (db : DB) (category_id : Option Int)
    (category_ids : Option (List Int)) : List Product :=
  if truthyList category_ids then
    db.products.filter (fun p => (category_ids.getD []).contains p.category_id)
  else if truthyInt category_id then
    db.products.filter (fun p => p.category_id == category_id.getD 0)
  else
    db.products

/-- The dict `get_category_report` returns. -/
structure Report where
  avg_price : ℚ
  total_stock : Int
  total_value : ℚ
deriving DecidableEq, Repr

/-- `get_category_report` (src/db.py lines 344-394): one query computing
`ROUND(AVG(price), 2)`, `SUM(stock)` and `SUM(price * stock)` over the
selected rows, then Python post-processing: `avg_price` is re-rounded
with `round(float(...), 2)` and every SQL `NULL` is replaced by `0` /
`0.0`. -/
def get_category_report (db : DB) (category_id : Option Int)
    (category_ids : Option (List Int)) : Report :=
  let sel := reportFilter db category_id category_ids
  let avg0 := (sqlAvg (sel.map (fun p => p.price))).map sqlRound2
  let stock0 := sqlSumZ (sel.map (fun p => p.stock))
  let value0 := sqlSumQ (sel.map (fun p => p.price * (p.stock : ℚ)))
  { avg_price := match avg0 with
      | some q => pyRound2 q
      | none => 0
    total_stock := stock0.getD 0
    total_value := value0.getD 0 }

/-! ### Connection lifetime on each exit path

Each data-access function opens a connection and runs a fixed sequence of
fallible statements (`execute`, `fetchall`, `commit`, ...).  The models
below record, for each single-fault scenario — statement number `i`
(0-based, counted among the fallible statements executed after the
connection was opened) raises an exception of the given kind, handler code
itself assumed not to raise — whether the call raises to its caller and
whether the connection is closed when the call exits. -/

/-- Kinds of exception a statement can raise: `sqlite3.IntegrityError`
or any other `Exception`. -/
inductive ExcKind where
  | integrity
  | other
deriving DecidableEq, Repr

/-- A single-fault scenario: `none` is the fault-free run, `some (i, e)`
makes the `i`-th fallible statement raise an exception of kind `e`. -/
def FaultSpec := Option (Nat × ExcKind)

/-- What the caller observes when the call exits. -/
structure ExitInfo where
  raised : Bool
  closed : Bool
deriving DecidableEq, Repr

/-- Exit behaviour of `get_all_categories` (src/db.py lines 108-115):
statements 0 = `execute`, 1 = `fetchall`, with no `try` around them —
a raise propagates before `conn.close()` is reached. -/
def get_all_categories_exit (f : FaultSpec) : ExitInfo :=
  match f with
  | some (i, _) =>
      if i < 2 then { raised := true, closed := false }
      else { raised := false, closed := true }
  | none => { raised := false, closed := true }

/-- Exit behaviour of `add_category` (src/db.py lines 118-129):
statements 0 = `execute INSERT`, 1 = `commit`, inside a `try` whose only
handler catches `sqlite3.IntegrityError` and closes the connection;
any other exception propagates with the connection still open. -/
def add_category_exit (f : FaultSpec) : ExitInfo :=
  match f with
  | some (i, e) =>
      if i < 2 then
        match e with
        | ExcKind.integrity => { raised := false, closed := true }
        | ExcKind.other => { raised := true, closed := false }
      else { raised := false, closed := true }
  | none => { raised := false, closed := true }

/-- Exit behaviour of `delete_category` (src/db.py lines 132-176): every
statement runs inside `try ... except Exception`, whose handler rolls
back and closes; both guarded-failure and fault paths close and return
`False` instead of raising. -/
def delete_category_exit (_f : FaultSpec) : ExitInfo :=
  { raised := false, closed := true }

/-- Exit behaviour of `get_all_products` (src/db.py lines 180-197):
statements 0 = `execute`, 1 = `fetchall`, no `try`. -/
def get_all_products_exit (f : FaultSpec) : ExitInfo :=
  match f with
  | some (i, _) =>
      if i < 2 then { raised := true, closed := false }
      else { raised := false, closed := true }
  | none => { raised := false, closed := true }

/-- Exit behaviour of `get_products_by_category` (src/db.py lines
200-238): one branch's `execute` then `fetchall`, no `try`. -/
def get_products_by_category_exit (f : FaultSpec) : ExitInfo :=
  match f with
  | some (i, _) =>
      if i < 2 then { raised := true, closed := false }
      else { raised := false, closed := true }
  | none => { raised := false, closed := true }

/-- Exit behaviour of `add_product` (src/db.py lines 241-257): every
statement inside `try ... except Exception`, whose handler closes. -/
def add_product_exit (_f : FaultSpec) : ExitInfo :=
  { raised := false, closed := true }

/-- Exit behaviour of `update_product` (src/db.py lines 260-289): every
statement inside `try ... except Exception`, whose handler rolls back
and closes. -/
def update_product_exit (_f : FaultSpec) : ExitInfo :=
  { raised := false, closed := true }

/-- Exit behaviour of `delete_product` (src/db.py lines 292-325): every
statement inside `try ... except Exception`, whose handler rolls back
and closes. -/
def delete_product_exit (_f : FaultSpec) : ExitInfo :=
  { raised := false, closed := true }

/-- Exit behaviour of `get_product_by_id` (src/db.py lines 328-340):
statements 0 = `execute`, 1 = `fetchone`, no `try`. -/
def get_product_by_id_exit (f : FaultSpec) : ExitInfo :=
  match f with
  | some (i, _) =>
      if i < 2 then { raised := true, closed := false }
      else { raised := false, closed := true }
  | none => { raised := false, closed := true }

/-- Exit behaviour of `get_category_report` (src/db.py lines 344-394):
statements 0 = `execute`, 1 = `fetchone`, no `try`. -/
def get_category_report_exit (f : FaultSpec) : ExitInfo :=
  match f with
  | some (i, _) =>
      if i < 2 then { raised := true, closed := false }
      else { raised := false, closed := true }
  | none => { raised := false, closed := true }

/-! ### Sample stores used by witnesses and counterexamples -/

/-- A store holding one category and no products. -/
def dbA : DB :=
  { categories := [{ category_id := 1, name := "Electronics" }],
    products := [], catSeq := 1, prodSeq := 0 }

/-- A store holding one category and one product referencing it. -/
def dbB : DB :=
  { categories := [{ category_id := 1, name := "A" }],
    products := [{ product_id := 1, name := "P", price := 10, stock := 2,
                   category_id := 1 }],
    catSeq := 1, prodSeq := 1 }

/-- A store holding two categories and one product in each. -/
def dbC : DB :=
  { categories := [{ category_id := 1, name := "A" }, { category_id := 2, name := "B" }],
    products := [{ product_id := 1, name := "p1", price := 10, stock := 2,
                   category_id := 1 },
                 { product_id := 2, name := "q1", price := 20, stock := 3,
                   category_id := 2 }],
    catSeq := 2, prodSeq := 2 }

/-! ### Theorems -/

/-- C2: deleting a category that at least one product references returns
`false` and leaves the whole store — category rows, product rows and both
sequence counters — exactly as it was. -/
theorem delete_category_referenced_blocked (db : DB) (cid : Int)
    (h : ∃ p ∈ db.products, p.category_id = cid) :
    delete_category db cid = (db, false) := by
  obtain ⟨p, hp, hpc⟩ := h
  have hm : p ∈ db.products.filter (fun q => q.category_id == cid) :=
    List.mem_filter.mpr ⟨hp, by simp [hpc]⟩
  have hlen : 0 < (db.products.filter (fun q => q.category_id == cid)).length :=
    List.length_pos_of_mem hm
  simp only [delete_category]
  rw [if_pos hlen]

/-- Witness for C2: in the store `dbB` the product references category 1,
and deleting category 1 is refused with the store unchanged. -/
theorem delete_category_referenced_blocked_witness :
    (∃ p ∈ dbB.products, p.category_id = 1) ∧ delete_category dbB 1 = (dbB, false) :=
  ⟨by decide, delete_category_referenced_blocked dbB 1 (by decide)⟩

/-- C9: mutating operations given an id that matches no row report success:
`delete_category` returns `true` when the id matches no category (and no
product references it), and `update_product` / `delete_product` return
`true` when the id matches no product; existing rows are left unchanged. -/
theorem missing_id_mutations (db : DB) (idc pid : Int) (n : String) (pr : ℚ)
    (st cid : Int)
    (hc : ∀ c ∈ db.categories, c.category_id ≠ idc)
    (hp : ∀ p ∈ db.products, p.category_id ≠ idc)
    (hq : ∀ p ∈ db.products, p.product_id ≠ pid) :
    (delete_category db idc).2 = true ∧
    (delete_category db idc).1.categories = db.categories ∧
    (delete_category db idc).1.products = db.products ∧
    update_product db pid n pr st cid = (db, true) ∧
    (delete_product db pid).2 = true ∧
    (delete_product db pid).1.products = db.products := by
  have h1 : db.products.filter (fun q => q.category_id == idc) = [] :=
    List.filter_eq_nil_iff.mpr (fun q hq' => by simpa using hp q hq')
  have h2 : db.categories.filter (fun c => !(c.category_id == idc)) = db.categories :=
    List.filter_eq_self.mpr (fun c hc' => by simpa using hc c hc')
  have h3 : db.products.filter (fun q => !(q.product_id == pid)) = db.products :=
    List.filter_eq_self.mpr (fun q hq' => by simpa using hq q hq')
  have h4 : db.products.map (updRow pid n pr st cid) = db.products := by
    conv_rhs => rw [← List.map_id db.products]
    exact List.map_congr_left (fun q hq' => by simp [updRow, hq q hq'])
  refine ⟨?_, ?_, ?_, ?_, ?_, ?_⟩ <;>
    simp only [delete_category, delete_product, update_product, h1, h2, h3, h4,
      List.length_nil] <;>
    split_ifs <;> simp_all

/-- Witness for C9: in the store `dbB`, id 9 matches no category and no
product, and all three mutators report success leaving the rows alone. -/
theorem missing_id_mutations_witness :
    ((∀ c ∈ dbB.categories, c.category_id ≠ 9) ∧
     (∀ p ∈ dbB.products, p.category_id ≠ 9) ∧
     (∀ p ∈ dbB.products, p.product_id ≠ 9)) ∧
    ((delete_category dbB 9).2 = true ∧
     (delete_category dbB 9).1.categories = dbB.categories ∧
     (delete_category dbB 9).1.products = dbB.products ∧
     update_product dbB 9 "N" 1 1 1 = (dbB, true) ∧
     (delete_product dbB 9).2 = true ∧
     (delete_product dbB 9).1.products = dbB.products) :=
  ⟨⟨by decide, by decide, by decide⟩,
   missing_id_mutations dbB 9 9 "N" 1 1 1 (by decide) (by decide) (by decide)⟩

/-- C10: a single-id filter argument of `0` is Python-falsy, so both
`get_products_by_category` and `get_category_report` behave exactly as
with no filter at all; and a non-empty id list takes precedence over any
single-id argument. -/
theorem falsy_zero_filter (db : DB) (cid : Option Int) (ids : List Int)
    (h : ids ≠ []) :
    get_products_by_category db (some 0) none = get_products_by_category db none none ∧
    get_category_report db (some 0) none = get_category_report db none none ∧
    get_products_by_category db cid (some ids) =
      get_products_by_category db none (some ids) ∧
    get_category_report db cid (some ids) =
      get_category_report db none (some ids) := by
  cases ids with
  | nil => exact absurd rfl h
  | cons a t => exact ⟨rfl, rfl, rfl, rfl⟩

/-- Witness for C10: the equalities hold on the concrete store `dbC` with
single id 5 and id list `[1]`. -/
theorem falsy_zero_filter_witness :
    ([1] ≠ ([] : List Int)) ∧
    (get_products_by_category dbC (some 0) none = get_products_by_category dbC none none ∧
     get_category_report dbC (some 0) none = get_category_report dbC none none ∧
     get_products_by_category dbC (some 5) (some [1]) =
       get_products_by_category dbC none (some [1]) ∧
     get_category_report dbC (some 5) (some [1]) =
       get_category_report dbC none (some [1])) :=
  ⟨by decide, falsy_zero_filter dbC (some 5) [1] (by decide)⟩

/-- C1 counterexample: on the store `dbA`, whose only category has id 1,
`add_product` with the non-existent category id 7 returns `true` and
inserts the row, storing an orphaned product — the claim says it returns
`false` rather than inserting. -/
theorem add_product_orphan_counterexample :
    (add_product dbA "Widget" 5 2 7).2 = true ∧
    (add_product dbA "Widget" 5 2 7).1.products =
      [{ product_id := 1, name := "Widget", price := 5, stock := 2,
         category_id := 7 }] ∧
    (∀ c ∈ (add_product dbA "Widget" 5 2 7).1.categories, c.category_id ≠ 7) := by
  decide

/-- C1 (amended): `add_product` checks nothing about `category_id` — the
declared foreign key is not enforced because the connection never enables
foreign-key enforcement — so it returns `true` and appends the row even
when no stored category has that id, leaving an orphaned product in the
store. -/
theorem add_product_no_fk_check (db : DB) (n : String) (pr : ℚ) (st cid : Int)
    (h : ∀ c ∈ db.categories, c.category_id ≠ cid) :
    (add_product db n pr st cid).2 = true ∧
    (add_product db n pr st cid).1.products =
      db.products ++ [{ product_id := nextProdId db, name := n, price := pr,
                        stock := st, category_id := cid }] ∧
    ∃ p ∈ (add_product db n pr st cid).1.products,
      ∀ c ∈ (add_product db n pr st cid).1.categories, c.category_id ≠ p.category_id := by
  refine ⟨rfl, rfl,
    ⟨{ product_id := nextProdId db, name := n, price := pr, stock := st,
       category_id := cid }, ?_, ?_⟩⟩
  · exact List.mem_append_right _ (List.mem_singleton_self _)
  · intro c hcmem
    exact h c hcmem

/-- Witness for C1 (amended): instantiated on `dbA` with category id 7,
which no category carries. -/
theorem add_product_no_fk_check_witness :
    (∀ c ∈ dbA.categories, c.category_id ≠ 7) ∧
    ((add_product dbA "Widget" 5 2 7).2 = true ∧
     (add_product dbA "Widget" 5 2 7).1.products =
       dbA.products ++ [{ product_id := nextProdId dbA, name := "Widget", price := 5,
                          stock := 2, category_id := 7 }] ∧
     ∃ p ∈ (add_product dbA "Widget" 5 2 7).1.products,
       ∀ c ∈ (add_product dbA "Widget" 5 2 7).1.categories, c.category_id ≠ p.category_id) :=
  ⟨by decide, add_product_no_fk_check dbA "Widget" 5 2 7 (by decide)⟩

/-- C8 counterexample: on the store `dbB`, `update_product` moving product
1 to the non-existent category 9 succeeds (returns `true`), yet
`get_product_by_id 1` then returns `none` instead of the new field
values, because the inner join finds no matching category row. -/
theorem update_orphan_get_none_counterexample :
    (update_product dbB 1 "Q" 5 3 9).2 = true ∧
    get_product_by_id (update_product dbB 1 "Q" 5 3 9).1 1 = none := by
  decide

/-- C3 counterexample: `get_all_categories` has an exit path — its query
raising any exception — on which the call propagates the exception while
the connection it opened is left unclosed. -/
theorem read_leak_counterexample :
    (get_all_categories_exit (some (0, ExcKind.other))).raised = true ∧
    (get_all_categories_exit (some (0, ExcKind.other))).closed = false :=
  ⟨rfl, rfl⟩

/-- C3 (amended): the four catch-all mutators close their connection on
every exit path and never raise; every function closes it on every
non-raising exit (normal return and guarded boolean failure, including
`add_category`'s duplicate-name failure); but the five read helpers leave
the connection open when their query raises, and `add_category` leaves it
open when a non-IntegrityError exception is raised. -/
theorem connection_close_exit_paths (f : FaultSpec) (i : Nat) (e : ExcKind) :
    delete_category_exit f = { raised := false, closed := true } ∧
    add_product_exit f = { raised := false, closed := true } ∧
    update_product_exit f = { raised := false, closed := true } ∧
    delete_product_exit f = { raised := false, closed := true } ∧
    get_all_categories_exit none = { raised := false, closed := true } ∧
    get_all_products_exit none = { raised := false, closed := true } ∧
    get_products_by_category_exit none = { raised := false, closed := true } ∧
    get_product_by_id_exit none = { raised := false, closed := true } ∧
    get_category_report_exit none = { raised := false, closed := true } ∧
    add_category_exit none = { raised := false, closed := true } ∧
    add_category_exit (some (i, ExcKind.integrity)) = { raised := false, closed := true } ∧
    add_category_exit (some (i, ExcKind.other)) =
      (if i < 2 then { raised := true, closed := false }
       else { raised := false, closed := true }) ∧
    get_all_categories_exit (some (i, e)) =
      (if i < 2 then { raised := true, closed := false }
       else { raised := false, closed := true }) ∧
    get_all_products_exit (some (i, e)) =
      (if i < 2 then { raised := true, closed := false }
       else { raised := false, closed := true }) ∧
    get_products_by_category_exit (some (i, e)) =
      (if i < 2 then { raised := true, closed := false }
       else { raised := false, closed := true }) ∧
    get_product_by_id_exit (some (i, e)) =
      (if i < 2 then { raised := true, closed := false }
       else { raised := false, closed := true }) ∧
    get_category_report_exit (some (i, e)) =
      (if i < 2 then { raised := true, closed := false }
       else { raised := false, closed := true }) := by
  refine ⟨rfl, rfl, rfl, rfl, rfl, rfl, rfl, rfl, rfl, rfl, ?_, ?_, ?_, ?_, ?_, ?_, ?_⟩
  · simp only [add_category_exit]
    split <;> rfl
  all_goals rfl

/-- Every rowid present in a table is bounded by `maxId`. -/
theorem le_maxId_of_mem {i : Int} {l : List Int} (h : i ∈ l) : i ≤ maxId l := by
  induction l with
  | nil => cases h
  | cons a t ih =>
    rcases List.mem_cons.mp h with rfl | h'
    · simp [maxId]
    · simpa [maxId] using le_trans (ih h') (le_max_right a (maxId t))

/-- A category deletion that leaves the table non-empty does not touch the
`Categories` sequence counter. -/
theorem delete_category_catSeq_of_nonempty (db : DB) (did : Int)
    (h : (delete_category db did).1.categories ≠ []) :
    (delete_category db did).1.catSeq = db.catSeq := by
  simp only [delete_category] at h ⊢
  split_ifs at h ⊢ with h1 h2
  · rfl
  · exact absurd (List.length_eq_zero.mp h2) (by simpa using h)
  · rfl

/-- A product deletion that leaves the table non-empty does not touch the
`Products` sequence counter. -/
theorem delete_product_prodSeq_of_nonempty (db : DB) (did : Int)
    (h : (delete_product db did).1.products ≠ []) :
    (delete_product db did).1.prodSeq = db.prodSeq := by
  simp only [delete_product] at h ⊢
  split_ifs at h ⊢ with h1
  · exact absurd (List.length_eq_zero.mp h1) (by simpa using h)
  · rfl

/-- C4: surrogate keys restart from 1 exactly when the owning table has
just become empty.  Deleting the sole category (no products referencing
it) returns `true`, resets the counter to 0 and makes the next
`add_category` produce id 1; deleting the sole product does the same for
`add_product`; and while rows remain ids are never reused: a fresh id
strictly dominates every current row id and the sequence counter, and a
deletion that leaves the table non-empty keeps the counter untouched. -/
theorem surrogate_key_lifecycle
    (db1 db2 db3 : DB) (c : Category) (p0 : Product)
    (n n2 : String) (pr : ℚ) (st cid did : Int)
    (hc : db1.categories = [c])
    (hnop : ∀ q ∈ db1.products, q.category_id ≠ c.category_id)
    (hp : db2.products = [p0]) :
    (delete_category db1 c.category_id).2 = true ∧
    (delete_category db1 c.category_id).1.categories = [] ∧
    (delete_category db1 c.category_id).1.catSeq = 0 ∧
    (add_category (delete_category db1 c.category_id).1 n).2 = true ∧
    (add_category (delete_category db1 c.category_id).1 n).1.categories =
      [{ category_id := 1, name := n }] ∧
    (delete_product db2 p0.product_id).2 = true ∧
    (delete_product db2 p0.product_id).1.products = [] ∧
    (delete_product db2 p0.product_id).1.prodSeq = 0 ∧
    (add_product (delete_product db2 p0.product_id).1 n2 pr st cid).2 = true ∧
    (add_product (delete_product db2 p0.product_id).1 n2 pr st cid).1.products =
      [{ product_id := 1, name := n2, price := pr, stock := st, category_id := cid }] ∧
    (∀ x ∈ db3.categories, x.category_id < nextCatId db3) ∧
    (∀ x ∈ db3.products, x.product_id < nextProdId db3) ∧
    db3.catSeq < nextCatId db3 ∧
    db3.prodSeq < nextProdId db3 ∧
    ((delete_category db3 did).1.categories ≠ [] →
      (delete_category db3 did).1.catSeq = db3.catSeq) ∧
    ((delete_product db3 did).1.products ≠ [] →
      (delete_product db3 did).1.prodSeq = db3.prodSeq) := by
  have hcnt : db1.products.filter (fun q => q.category_id == c.category_id) = [] :=
    List.filter_eq_nil_iff.mpr (fun q hq' => by simpa using hnop q hq')
  have hdel :
      delete_category db1 c.category_id =
        ({ db1 with categories := [], catSeq := 0 }, true) := by
    simp [delete_category, hcnt, hc]
  have hdelp :
      delete_product db2 p0.product_id = ({ db2 with products := [], prodSeq := 0 }, true) := by
    simp [delete_product, hp]
  refine ⟨by rw [hdel], by rw [hdel], by rw [hdel], ?_, ?_, by rw [hdelp], by rw [hdelp],
    by rw [hdelp], rfl, ?_, ?_, ?_, ?_, ?_,
    delete_category_catSeq_of_nonempty db3 did, delete_product_prodSeq_of_nonempty db3 did⟩
  · rw [hdel]
    simp [add_category]
  · rw [hdel]
    simp [add_category, nextCatId, maxId]
  · rw [hdelp]
    simp [add_product, nextProdId, maxId]
  · intro x hx
    have hle : x.category_id ≤ maxId (db3.categories.map (fun y => y.category_id)) :=
      le_maxId_of_mem (List.mem_map_of_mem _ hx)
    exact lt_of_le_of_lt (le_trans hle (le_max_right _ _)) (lt_add_one _)
  · intro x hx
    have hle : x.product_id ≤ maxId (db3.products.map (fun y => y.product_id)) :=
      le_maxId_of_mem (List.mem_map_of_mem _ hx)
    exact lt_of_le_of_lt (le_trans hle (le_max_right _ _)) (lt_add_one _)
  · exact lt_of_le_of_lt (le_max_left _ _) (lt_add_one _)
  · exact lt_of_le_of_lt (le_max_left _ _) (lt_add_one _)

/-- Witness for C4: instantiated with `dbA` (one category, no products) for
the category part, `dbB` restricted scenario for the product part, and
`dbC` for the freshness part. -/
theorem surrogate_key_lifecycle_witness :
    (dbA.categories = [{ category_id := 1, name := "Electronics" }] ∧
     (∀ q ∈ dbA.products, q.category_id ≠ 1) ∧
     dbB.products = [{ product_id := 1, name := "P", price := 10, stock := 2,
                       category_id := 1 }]) ∧
    ((delete_category dbA 1).2 = true ∧
     (delete_category dbA 1).1.categories = [] ∧
     (delete_category dbA 1).1.catSeq = 0 ∧
     (add_category (delete_category dbA 1).1 "Books").2 = true ∧
     (add_category (delete_category dbA 1).1 "Books").1.categories =
       [{ category_id := 1, name := "Books" }] ∧
     (delete_product dbB 1).2 = true ∧
     (delete_product dbB 1).1.products = [] ∧
     (delete_product dbB 1).1.prodSeq = 0 ∧
     (add_product (delete_product dbB 1).1 "W" 5 2 1).2 = true ∧
     (add_product (delete_product dbB 1).1 "W" 5 2 1).1.products =
       [{ product_id := 1, name := "W", price := 5, stock := 2, category_id := 1 }] ∧
     (∀ x ∈ dbC.categories, x.category_id < nextCatId dbC) ∧
     (∀ x ∈ dbC.products, x.product_id < nextProdId dbC) ∧
     dbC.catSeq < nextCatId dbC ∧
     dbC.prodSeq < nextProdId dbC ∧
     ((delete_category dbC 9).1.categories ≠ [] →
       (delete_category dbC 9).1.catSeq = dbC.catSeq) ∧
     ((delete_product dbC 9).1.products ≠ [] →
       (delete_product dbC 9).1.prodSeq = dbC.prodSeq)) := by
  constructor
  · exact ⟨by decide, by decide, by decide⟩
  · exact surrogate_key_lifecycle dbA dbB dbC
      { category_id := 1, name := "Electronics" }
      { product_id := 1, name := "P", price := 10, stock := 2, category_id := 1 }
      "Books" "W" 5 2 1 9 (by decide) (by decide) (by decide)

/-- Rounding an integer, ties-to-even style, is the identity. -/
theorem bankers_intCast (m : ℤ) : bankers (m : ℚ) = m := by
  unfold bankers
  rw [Int.fract_intCast, if_neg (by norm_num), round_intCast]

/-- Python's re-rounding of a value SQLite already rounded to 2 decimal
places changes nothing: the double rounding collapses. -/
theorem pyRound2_sqlRound2 (x : ℚ) : pyRound2 (sqlRound2 x) = sqlRound2 x := by
  unfold pyRound2 sqlRound2
  rw [div_mul_cancel₀ _ (by norm_num : (100 : ℚ) ≠ 0), bankers_intCast]

/-- C5: `get_category_report` returns the arithmetic mean of the selected
prices rounded to 2 decimal places (`0` when no rows are selected), the
sum of the selected stocks, and the sum of price × stock over the
selected rows (both sums are `0` when no rows are selected, via the
NULL-to-zero replacement). -/
theorem category_report_correct (db : DB) (cid : Option Int)
    (ids : Option (List Int)) :
    get_category_report db cid ids =
      { avg_price :=
          if (reportFilter db cid ids).isEmpty then 0
          else sqlRound2
            (((reportFilter db cid ids).map (fun p => p.price)).sum /
              ((reportFilter db cid ids).length : ℚ)),
        total_stock := ((reportFilter db cid ids).map (fun p => p.stock)).sum,
        total_value :=
          ((reportFilter db cid ids).map (fun p => p.price * (p.stock : ℚ))).sum } := by
  cases hsel : reportFilter db cid ids with
  | nil => simp [get_category_report, hsel, sqlAvg, sqlSumZ, sqlSumQ]
  | cons p ps =>
    simp [get_category_report, hsel, sqlAvg, sqlSumZ, sqlSumQ, pyRound2_sqlRound2]

/-- Counting name matches in the `listCategories` output equals counting
them in the stored table: the id-sort is a permutation. -/
theorem length_filter_get_all_categories (db : DB) (n : String) :
    ((get_all_categories db).filter (fun e => e.2 == n)).length =
      db.categories.countP (fun c => c.name == n) := by
  rw [get_all_categories, ← List.countP_eq_length_filter, List.countP_map]
  exact (List.perm_insertionSort catLe db.categories).countP_eq _

/-- C7: adding a category whose name is already stored returns `false` and
leaves the table unchanged, so after two `add_category` calls with the
same name `listCategories` holds exactly one entry with that name; and
(per the exit model) a non-IntegrityError failure propagates to the
caller while the uniqueness violation is the boolean failure. -/
theorem add_category_duplicate_name (db : DB) (n : String)
    (hnd : (db.categories.map (fun c => c.name)).Nodup) :
    ((∃ c ∈ db.categories, c.name = n) → add_category db n = (db, false)) ∧
    (add_category (add_category db n).1 n).2 = false ∧
    (add_category (add_category db n).1 n).1 = (add_category db n).1 ∧
    ((get_all_categories (add_category (add_category db n).1 n).1).filter
        (fun e => e.2 == n)).length = 1 ∧
    (add_category_exit (some (0, ExcKind.other))).raised = true ∧
    (add_category_exit (some (0, ExcKind.integrity))).raised = false := by
  have hdup : ∀ d : DB, d.categories.any (fun c => c.name == n) = true →
      add_category d n = (d, false) := by
    intro d hd
    simp [add_category, hd]
  by_cases hmem : db.categories.any (fun c => c.name == n) = true
  · have h1 : add_category db n = (db, false) := hdup db hmem
    have hcount : db.categories.countP (fun c => c.name == n) = 1 := by
      obtain ⟨c, hcmem, hcn⟩ := List.any_eq_true.mp hmem
      have hcn' : c.name = n := by simpa using hcn
      have hnmem : n ∈ db.categories.map (fun c => c.name) :=
        List.mem_map.mpr ⟨c, hcmem, hcn'⟩
      have := List.count_eq_one_of_mem hnd hnmem
      rwa [List.count, List.countP_map] at this
    have h2 : add_category (add_category db n).1 n = ((add_category db n).1, false) := by
      apply hdup
      rw [h1]
      simpa using hmem
    refine ⟨fun _ => h1, ?_, ?_, ?_, rfl, rfl⟩
    · rw [h2]
    · rw [h2]
    · rw [h2, length_filter_get_all_categories, h1]
      simpa using hcount
  · have hzero : db.categories.countP (fun c => c.name == n) = 0 := by
      refine List.countP_eq_zero.mpr ?_
      intro c hcmem
      intro hcn
      exact hmem (List.any_eq_true.mpr ⟨c, hcmem, hcn⟩)
    have h1 : add_category db n =
        ({ db with
            categories := db.categories ++ [{ category_id := nextCatId db, name := n }],
            catSeq := nextCatId db },
         true) := by
      simp [add_category, hmem]
    have h2 : add_category (add_category db n).1 n = ((add_category db n).1, false) := by
      apply hdup
      rw [h1]
      simp
    refine ⟨?_, ?_, ?_, ?_, rfl, rfl⟩
    · intro hex
      obtain ⟨c, hcmem, hcn⟩ := hex
      exact absurd (List.any_eq_true.mpr ⟨c, hcmem, by simpa using hcn⟩) hmem
    · rw [h2]
    · rw [h2]
    · rw [h2, length_filter_get_all_categories, h1]
      simp [List.countP_append, hzero]

/-- Witness for C7: the store `dbC` has distinct category names, and
adding the name "A" twice leaves exactly one entry named "A". -/
theorem add_category_duplicate_name_witness :
    (dbC.categories.map (fun c => c.name)).Nodup ∧
    (((∃ c ∈ dbC.categories, c.name = "A") → add_category dbC "A" = (dbC, false)) ∧
     (add_category (add_category dbC "A").1 "A").2 = false ∧
     (add_category (add_category dbC "A").1 "A").1 = (add_category dbC "A").1 ∧
     ((get_all_categories (add_category (add_category dbC "A").1 "A").1).filter
         (fun e => e.2 == "A")).length = 1 ∧
     (add_category_exit (some (0, ExcKind.other))).raised = true ∧
     (add_category_exit (some (0, ExcKind.integrity))).raised = false) :=
  ⟨by decide, add_category_duplicate_name dbC "A" (by decide)⟩

/-- With pairwise-distinct category ids, the categories matching an id
that is present reduce to the one matching row. -/
theorem filter_eq_singleton_of_nodup {cats : List Category} {x : Int}
    (hnd : (cats.map (fun c => c.category_id)).Nodup)
    (hex : ∃ c ∈ cats, c.category_id = x) :
    ∃ c ∈ cats, c.category_id = x ∧
      cats.filter (fun c => c.category_id == x) = [c] := by
  induction cats with
  | nil =>
    obtain ⟨c, hc, _⟩ := hex
    cases hc
  | cons a t ih =>
    rw [List.map_cons, List.nodup_cons] at hnd
    obtain ⟨hna, hnt⟩ := hnd
    by_cases hax : a.category_id = x
    · refine ⟨a, List.mem_cons_self a t, hax, ?_⟩
      rw [List.filter_cons_of_pos (by simpa using hax)]
      have ht : t.filter (fun c => c.category_id == x) = [] := by
        refine List.filter_eq_nil_iff.mpr ?_
        intro c hct hcx
        have hcx' : c.category_id = a.category_id := by
          rw [hax]
          simpa using hcx
        exact hna (hcx' ▸ List.mem_map_of_mem (fun c => c.category_id) hct)
      rw [ht]
    · rw [List.filter_cons_of_neg (by simpa using hax)]
      have hex' : ∃ c ∈ t, c.category_id = x := by
        obtain ⟨c, hc, hcx⟩ := hex
        rcases List.mem_cons.mp hc with rfl | hct
        · exact absurd hcx hax
        · exact ⟨c, hct, hcx⟩
      obtain ⟨c, hct, hcx, hfil⟩ := ih hnt hex'
      exact ⟨c, List.mem_cons_of_mem a hct, hcx, hfil⟩

/-- Under referential integrity and distinct category ids, the inner join
keeps exactly one row per product, in table order. -/
theorem joinRows_map_toProd {cats : List Category} {prods : List Product}
    (hnd : (cats.map (fun c => c.category_id)).Nodup)
    (hint : ∀ p ∈ prods, ∃ c ∈ cats, c.category_id = p.category_id) :
    (joinRows cats prods).map toProd = prods := by
  induction prods with
  | nil => rfl
  | cons p ps ih =>
    rw [joinRows, List.map_append]
    obtain ⟨c, _, _, hfil⟩ :=
      filter_eq_singleton_of_nodup hnd (hint p (List.mem_cons_self p ps))
    rw [joinRow, hfil]
    rw [ih (fun q hq => hint q (List.mem_cons_of_mem p hq))]
    rfl

/-- Every joined row carries the id and name of a stored category. -/
theorem mem_joinRows_name {cats : List Category} {prods : List Product}
    {r : ProductRow} (hr : r ∈ joinRows cats prods) :
    ∃ c ∈ cats, c.category_id = r.category_id ∧ r.category_name = c.name := by
  induction prods with
  | nil => cases hr
  | cons p ps ih =>
    rw [joinRows] at hr
    rcases List.mem_append.mp hr with h1 | h2
    · rw [joinRow] at h1
      obtain ⟨c, hcf, hmk⟩ := List.mem_map.mp h1
      obtain ⟨hcm, hcid⟩ := List.mem_filter.mp hcf
      refine ⟨c, hcm, ?_, ?_⟩
      · subst hmk
        simpa using hcid
      · subst hmk
        rfl
    · exact ih h2

/-- Filtering the join on the category id is the same as joining the
filtered product table: each product's rows all carry its category id. -/
theorem joinRows_filter (cats : List Category) (prods : List Product)
    (q : Int → Bool) :
    (joinRows cats prods).filter (fun r => q r.category_id) =
      joinRows cats (prods.filter (fun p => q p.category_id)) := by
  induction prods with
  | nil => rfl
  | cons p ps ih =>
    rw [joinRows, List.filter_append, ih]
    by_cases hq : q p.category_id = true
    · rw [List.filter_cons, if_pos hq, joinRows]
      congr 1
      refine List.filter_eq_self.mpr ?_
      intro r hr
      rw [joinRow] at hr
      obtain ⟨c, _, hmk⟩ := List.mem_map.mp hr
      subst hmk
      simpa using hq
    · rw [List.filter_cons, if_neg hq]
      have hnil : (joinRow cats p).filter (fun r => q r.category_id) = [] := by
        refine List.filter_eq_nil_iff.mpr ?_
        intro r hr
        rw [joinRow] at hr
        obtain ⟨c, _, hmk⟩ := List.mem_map.mp hr
        subst hmk
        simpa using hq
      rw [hnil, List.nil_append]

/-- C6: on a store whose products all reference existing, distinct
categories, `get_products_by_category` returns all products when the id
list is absent or empty, and exactly the products whose category id lies
in the list when it is non-empty; in every case the output is sorted by
product name ascending and each row carries the joined category name. -/
theorem products_by_category_correct (db : DB)
    (hnd : (db.categories.map (fun c => c.category_id)).Nodup)
    (hint : ∀ p ∈ db.products, ∃ c ∈ db.categories, c.category_id = p.category_id)
    (ids : List Int) (hne : ids ≠ []) :
    ((get_products_by_category db none none).map toProd).Perm db.products ∧
    ((get_products_by_category db none (some [])).map toProd).Perm db.products ∧
    List.Sorted rowLe (get_products_by_category db none none) ∧
    ((get_products_by_category db none (some ids)).map toProd).Perm
      (db.products.filter (fun p => ids.contains p.category_id)) ∧
    List.Sorted rowLe (get_products_by_category db none (some ids)) ∧
    (∀ r ∈ get_products_by_category db none (some ids),
      ∃ c ∈ db.categories, c.category_id = r.category_id ∧ r.category_name = c.name) ∧
    (∀ r ∈ get_products_by_category db none none,
      ∃ c ∈ db.categories, c.category_id = r.category_id ∧ r.category_name = c.name) := by
  obtain ⟨a, t, rfl⟩ : ∃ a t, ids = a :: t := by
    cases ids with
    | nil => exact absurd rfl hne
    | cons a t => exact ⟨a, t, rfl⟩
  have hallperm : ((get_products_by_category db none none).map toProd).Perm db.products := by
    refine ((List.perm_insertionSort rowLe
      (joinRows db.categories db.products)).map toProd).trans ?_
    rw [joinRows_map_toProd hnd hint]
  have hfil :
      (joinRows db.categories db.products).filter
          (fun r => (a :: t).contains r.category_id) =
        joinRows db.categories
          (db.products.filter (fun p => (a :: t).contains p.category_id)) :=
    joinRows_filter db.categories db.products (fun i => (a :: t).contains i)
  refine ⟨hallperm, hallperm, List.sorted_insertionSort rowLe _, ?_, ?_, ?_, ?_⟩
  · refine ((List.perm_insertionSort rowLe _).map toProd).trans ?_
    simp only [Option.getD_some]
    rw [hfil, joinRows_map_toProd hnd
      (fun q hq => hint q (List.mem_filter.mp hq).1)]
  · exact List.sorted_insertionSort rowLe _
  · intro r hr
    have hr1 : r ∈ (joinRows db.categories db.products).filter
        (fun r => (a :: t).contains r.category_id) :=
      (List.perm_insertionSort rowLe _).subset hr
    exact mem_joinRows_name (List.mem_filter.mp hr1).1
  · intro r hr
    exact mem_joinRows_name ((List.perm_insertionSort rowLe _).subset hr)

/-- Witness for C6: instantiated on the two-category store `dbC` with the
id list `[1]`. -/
theorem products_by_category_correct_witness :
    ((dbC.categories.map (fun c => c.category_id)).Nodup ∧
     (∀ p ∈ dbC.products, ∃ c ∈ dbC.categories, c.category_id = p.category_id) ∧
     ([1] : List Int) ≠ []) ∧
    (((get_products_by_category dbC none none).map toProd).Perm dbC.products ∧
     ((get_products_by_category dbC none (some [])).map toProd).Perm dbC.products ∧
     List.Sorted rowLe (get_products_by_category dbC none none) ∧
     ((get_products_by_category dbC none (some [1])).map toProd).Perm
       (dbC.products.filter (fun p => [1].contains p.category_id)) ∧
     List.Sorted rowLe (get_products_by_category dbC none (some [1])) ∧
     (∀ r ∈ get_products_by_category dbC none (some [1]),
       ∃ c ∈ dbC.categories, c.category_id = r.category_id ∧ r.category_name = c.name) ∧
     (∀ r ∈ get_products_by_category dbC none none,
       ∃ c ∈ dbC.categories, c.category_id = r.category_id ∧ r.category_name = c.name)) :=
  ⟨⟨by decide, by decide, by decide⟩,
   products_by_category_correct dbC (by decide) (by decide) [1] (by decide)⟩

/-- The first filtered element is the first element satisfying the
predicate. -/
theorem head?_filter_eq_find? {α : Type} (p : α → Bool) (l : List α) :
    (l.filter p).head? = l.find? p := by
  induction l with
  | nil => rfl
  | cons a t ih =>
    by_cases h : p a = true
    · rw [List.filter_cons, if_pos h, List.find?_cons_of_pos t h]
      rfl
    · rw [List.filter_cons, if_neg h, List.find?_cons_of_neg t h]
      exact ih

/-- When every element satisfies the predicate, `find?` is `head?`. -/
theorem find?_eq_head?_of_forall {α : Type} (p : α → Bool) (l : List α)
    (h : ∀ a ∈ l, p a = true) : l.find? p = l.head? := by
  cases l with
  | nil => rfl
  | cons a t =>
    rw [List.find?_cons_of_pos t (h a (List.mem_cons_self a t))]
    rfl

/-- The `UPDATE` rewrite never changes a row's `product_id`. -/
theorem updRow_product_id (pid : Int) (n : String) (pr : ℚ) (st cid : Int)
    (x : Product) : (updRow pid n pr st cid x).product_id = x.product_id := by
  unfold updRow
  split <;> rfl

/-- After the `UPDATE`, scanning the join for the product id finds the row
rewritten from the first matching product, joined with the first
category matching the new `category_id`. -/
theorem find?_joinRows_update (cats : List Category) (prods : List Product)
    (pid cid : Int) (n : String) (pr : ℚ) (st : Int) (c : Category) (q : Product)
    (hq : prods.find? (fun p => p.product_id == pid) = some q)
    (hc : cats.find? (fun cc => cc.category_id == cid) = some c) :
    (joinRows cats (prods.map (updRow pid n pr st cid))).find?
        (fun r => r.product_id == pid) =
      some { product_id := pid, name := n, price := pr, stock := st,
             category_id := cid, category_name := c.name } := by
  induction prods with
  | nil => cases hq
  | cons p ps ih =>
    by_cases hp : (p.product_id == pid) = true
    · have hpe : p.product_id = pid := by simpa using hp
      rw [List.map_cons, joinRows]
      have hupd : updRow pid n pr st cid p =
          { product_id := p.product_id, name := n, price := pr, stock := st,
            category_id := cid } := by
        simp [updRow, hp]
      rw [hupd, List.find?_append]
      have hall : ∀ r ∈ joinRow cats
          { product_id := p.product_id, name := n, price := pr, stock := st,
            category_id := cid }, (r.product_id == pid) = true := by
        intro r hr
        rw [joinRow] at hr
        obtain ⟨cc, _, hmk⟩ := List.mem_map.mp hr
        subst hmk
        simpa using hp
      rw [find?_eq_head?_of_forall _ _ hall, joinRow, List.head?_map,
        head?_filter_eq_find?, hc]
      rw [hpe]
      rfl
    · rw [List.find?_cons_of_neg ps hp] at hq
      rw [List.map_cons, joinRows]
      have hupd : updRow pid n pr st cid p = p := by
        simp [updRow, hp]
      rw [hupd, List.find?_append]
      have hnone : (joinRow cats p).find? (fun r => r.product_id == pid) = none := by
        rw [List.find?_eq_none]
        intro r hr
        rw [joinRow] at hr
        obtain ⟨cc, _, hmk⟩ := List.mem_map.mp hr
        subst hmk
        simpa using hp
      rw [hnone, Option.none_or]
      exact ih hq

/-- C8 (amended): after `update_product` succeeds on a stored product id
with a `category_id` that references an existing category, the next
`get_product_by_id` returns exactly the new field values (with that
category's name), and every product row with a different id — and the
whole category table — is unchanged; when the new `category_id`
references no category the update still succeeds and rewrites the row,
but `get_product_by_id` then returns `none` because of the inner join. -/
theorem update_then_get (db : DB) (pid cid : Int) (n : String) (pr : ℚ)
    (st : Int) (c : Category) (q : Product)
    (hq : db.products.find? (fun p => p.product_id == pid) = some q)
    (hc : db.categories.find? (fun cc => cc.category_id == cid) = some c) :
    (update_product db pid n pr st cid).2 = true ∧
    get_product_by_id (update_product db pid n pr st cid).1 pid =
      some { product_id := pid, name := n, price := pr, stock := st,
             category_id := cid, category_name := c.name } ∧
    (update_product db pid n pr st cid).1.products.filter
        (fun x => !(x.product_id == pid)) =
      db.products.filter (fun x => !(x.product_id == pid)) ∧
    (update_product db pid n pr st cid).1.categories = db.categories := by
  refine ⟨rfl, ?_, ?_, rfl⟩
  · exact find?_joinRows_update db.categories db.products pid cid n pr st c q hq hc
  · show (db.products.map (updRow pid n pr st cid)).filter
        (fun x => !(x.product_id == pid)) =
      db.products.filter (fun x => !(x.product_id == pid))
    rw [List.filter_map]
    rw [List.filter_congr
      (fun x _ => by rw [Function.comp_apply, updRow_product_id])]
    refine List.map_congr_left ?_ |>.trans (List.map_id _)
    intro x hx
    have hxne : ¬(x.product_id == pid) = true := by
      simpa using (List.mem_filter.mp hx).2
    simp [updRow, hxne]

/-- Witness for C8 (amended): on the store `dbC`, updating product 1 and
moving it to category 2 round-trips through `get_product_by_id`. -/
theorem update_then_get_witness :
    (dbC.products.find? (fun p => p.product_id == 1) =
       some { product_id := 1, name := "p1", price := 10, stock := 2,
              category_id := 1 } ∧
     dbC.categories.find? (fun cc => cc.category_id == 2) =
       some { category_id := 2, name := "B" }) ∧
    ((update_product dbC 1 "r1" 7 4 2).2 = true ∧
     get_product_by_id (update_product dbC 1 "r1" 7 4 2).1 1 =
       some { product_id := 1, name := "r1", price := 7, stock := 4,
              category_id := 2, category_name := "B" } ∧
     (update_product dbC 1 "r1" 7 4 2).1.products.filter
         (fun x => !(x.product_id == 1)) =
       dbC.products.filter (fun x => !(x.product_id == 1)) ∧
     (update_product dbC 1 "r1" 7 4 2).1.categories = dbC.categories) :=
  ⟨⟨by decide, by decide⟩,
   update_then_get dbC 1 2 "r1" 7 4
     { category_id := 2, name := "B" }
     { product_id := 1, name := "p1", price := 10, stock := 2, category_id := 1 }
     (by decide) (by decide)⟩

end Inventory
